import Mathlib

/-!
Verification development for the telemetry query-and-aggregation core of the
mcp-konnect repository (Kong Konnect MCP server).

The embedding follows the source:
* `src/operations/analytics.ts` (`queryApiRequests`, `getConsumerRequests`),
* the `analyze-failed-requests` and `get-service-requests` handlers of
  `mcp-konnect-api.js`.

JavaScript semantics relevant to the embedded code and captured here:
* `a ?? b` takes `a` unless `a` is `undefined`/`null`;
* `a || b` takes `a` unless `a` is falsy (`undefined`, `0`, `""`);
* a plain object used as a map enumerates (`Object.entries`) its integer-like
  keys first, in ascending numeric order, and then its remaining string keys
  in insertion order;
* `Array.prototype.sort` is stable, so `.sort((a, b) => b.count - a.count)`
  orders by count descending and keeps the enumeration order among ties.

Numbers are modelled as `ℚ` (latencies, percentages) and `ℕ` (status codes,
counts); `parseFloat(x.toFixed(2))` is modelled as exact rounding to two
decimal places, half away from zero, as the behaviour the source relies on.
-/

namespace McpKonnect

/-- JavaScript `x || y` on optional numbers: `undefined` and `0` are falsy,
so a present-but-zero `x` still falls through to `y`. -/
def jsOrNum (x y : Option Nat) : Option Nat :=
  match x with
  | none => y
  | some n => if n = 0 then y else some n

/-- JavaScript `x || d` on an optional string against a string default:
`undefined` and the empty string are falsy. -/
def jsOrStr (x : Option String) (d : String) : String :=
  match x with
  | none => d
  | some s => if s = "" then d else s

/-- A raw record returned by the backend per matched request
(`ApiRequestResult` in `src/types.ts`); every field used by the analytics
code may be absent at runtime, which the source code defends against, so
each is modelled as an `Option`.  Fields never read by the embedded
computations (rate limiting, headers, ...) are omitted. -/
structure ApiRequestResult where
  request_id : Option String := none
  request_start : Option String := none
  http_method : Option String := none
  request_uri : Option String := none
  status_code : Option Nat := none
  response_http_status : Option Nat := none
  consumer : Option String := none
  gateway_service : Option String := none
  route : Option String := none
  latencies_response_ms : Option ℚ := none
  latencies_kong_gateway_ms : Option ℚ := none
  latencies_upstream_ms : Option ℚ := none
  client_ip : Option String := none
  trace_id : Option String := none
deriving DecidableEq

/-- `req.status_code ?? req.response_http_status ?? 0`
(`analytics.ts` lines 243, 250 and 262): primary status field, then the
fallback field, then `0`. -/
def resolvedStatus (r : ApiRequestResult) : Nat :=
  match r.status_code with
  | some s => s
  | none =>
    match r.response_http_status with
    | some s => s
    | none => 0

/-- `req.status_code || req.response_http_status`
(`analytics.ts` lines 105 and 303): the per-request list resolves the status
with the falsy-or chain and has no `0` default. -/
def displayStatus (r : ApiRequestResult) : Option Nat :=
  jsOrNum r.status_code r.response_http_status

/-- `req.latencies_response_ms || 0` (`analytics.ts` line 239). -/
def latencyOrZero (r : ApiRequestResult) : ℚ :=
  (r.latencies_response_ms).getD 0

/-- `req.gateway_service ?? "unknown"` (`analytics.ts` line 256). -/
def svcKey (r : ApiRequestResult) : String :=
  (r.gateway_service).getD "unknown"

/-- `req.consumer || "anonymous"` (`mcp-konnect-api.js` line 480). -/
def consumerKeyJs (r : ApiRequestResult) : String :=
  jsOrStr r.consumer "anonymous"

/-- `req.gateway_service || "unknown"` (`mcp-konnect-api.js` line 490). -/
def svcKeyJs (r : ApiRequestResult) : String :=
  jsOrStr r.gateway_service "unknown"

/-- `req.http_method || "unknown"` (`mcp-konnect-api.js` line 500). -/
def methodKeyJs (r : ApiRequestResult) : String :=
  jsOrStr r.http_method "unknown"

/-- `req.route || "unknown"` (`mcp-konnect-api.js` line 880). -/
def routeKeyJs (r : ApiRequestResult) : String :=
  jsOrStr r.route "unknown"

/-- `m[k] = (m[k] || 0) + 1` on a JavaScript object with numeric keys.
`Object.entries` enumerates integer-like keys in ascending numeric order, so
the entry list is kept sorted by key; an absent key is inserted at its
numeric position with count `1`. -/
def bumpNum (k : Nat) : List (Nat × Nat) → List (Nat × Nat)
  | [] => [(k, 1)]
  | (k', c) :: rest =>
    if k = k' then (k', c + 1) :: rest
    else if k < k' then (k, 1) :: (k', c) :: rest
    else (k', c) :: bumpNum k rest

/-- `if (!m[k]) m[k] = dflt; <mutate m[k]>` on a JavaScript object with
string keys.  `Object.entries` enumerates string keys in insertion order, so
the entry list keeps insertion order: an existing entry is updated in place
and a new key is appended with `upd dflt`. -/
def bumpWith {κ ν : Type} [DecidableEq κ] (k : κ) (upd : ν → ν) (dflt : ν) :
    List (κ × ν) → List (κ × ν)
  | [] => [(k, upd dflt)]
  | (k', v) :: rest =>
    if k = k' then (k', upd v) :: rest
    else (k', v) :: bumpWith k upd dflt rest

/-- `records.forEach(req => { ...bump the entry at key(req)... })`: the
insertion-ordered grouping loop shared by the service/consumer/route/method
breakdowns of the source. -/
def accumBy {κ ν : Type} [DecidableEq κ] (key : ApiRequestResult → κ)
    (upd : ApiRequestResult → ν → ν) (dflt : ν)
    (records : List ApiRequestResult) : List (κ × ν) :=
  records.foldl (fun m r => bumpWith (key r) (upd r) dflt m) []

/-- `records.forEach(req => { counts[f(req)] = (counts[f(req)] || 0) + 1 })`
on a numeric-keyed object (entries ascending by key). -/
def countNumBy (f : ApiRequestResult → Nat)
    (records : List ApiRequestResult) : List (Nat × Nat) :=
  records.foldl (fun m r => bumpNum (f r) m) []

/-- One step of `Array.prototype.sort`'s stable order for the comparator
`(a, b) => b.count - a.count`: insert `x` in front of the first element whose
count does not exceed `cnt x`, i.e. after every strictly greater count and
before every tied one that was enumerated later. -/
def insertByCnt {α : Type} (cnt : α → Nat) (x : α) : List α → List α
  | [] => [x]
  | y :: ys => if cnt y ≤ cnt x then x :: y :: ys else y :: insertByCnt cnt x ys

/-- `.sort((a, b) => b.count - a.count)`: stable sort by count descending. -/
def sortByCountDesc {α : Type} (cnt : α → Nat) : List α → List α
  | [] => []
  | x :: xs => insertByCnt cnt x (sortByCountDesc cnt xs)

/-- Round half away from zero, the tie rule of `toFixed` that the source
relies on for its two-decimal output values. -/
def roundHalfAway (q : ℚ) : ℤ :=
  if q < 0 then -⌊-q + 1/2⌋ else ⌊q + 1/2⌋

/-- `parseFloat(x.toFixed(2))`: exact rounding to two decimal places. -/
def roundTo2 (q : ℚ) : ℚ :=
  ((roundHalfAway (q * 100) : ℤ) : ℚ) / 100

/-- `parseFloat(((count / total) * 100).toFixed(2))`: the percentage of a
group of `c` records against `total` records. -/
def pct (c total : Nat) : ℚ :=
  roundTo2 ((c : ℚ) / (total : ℚ) * 100)

/-- Index of the first occurrence of `k` in a list (length of the list when
absent); used to state the first-appearance tie-break order. -/
def fIdx {κ : Type} [DecidableEq κ] (k : κ) : List κ → Nat
  | [] => 0
  | t :: rest => if t = k then 0 else fIdx k rest + 1

/-! ## Filter builder (`analytics.ts`, `queryApiRequests` lines 33-87) -/

/-- Filter operators of the declarative filter language.  `IN` and `NOT_IN`
embed the source strings `"in"` and `"not_in"` of the `ApiRequestFilter`
records pushed by the builders. -/
inductive FilterOperator where
  | IN : FilterOperator
  | NOT_IN : FilterOperator
deriving DecidableEq

/-- The `value` carried by a filter predicate: a list of status codes or a
list of identifier/bucket strings. -/
inductive FilterValue where
  | nums : List Nat → FilterValue
  | strs : List String → FilterValue
deriving DecidableEq

/-- One `ApiRequestFilter` record (`src/types.ts`). -/
structure FilterPredicate where
  field : String
  operator : FilterOperator
  value : FilterValue
deriving DecidableEq

/-- The optional filter arguments of `queryApiRequests` (`analytics.ts`
lines 20-29); `none` models an omitted argument. -/
structure QueryApiRequestsArgs where
  statusCodes : Option (List Nat) := none
  excludeStatusCodes : Option (List Nat) := none
  httpMethods : Option (List String) := none
  consumerIds : Option (List String) := none
  serviceIds : Option (List String) := none
  routeIds : Option (List String) := none
deriving DecidableEq

/-- The filter array built by `queryApiRequests` (`analytics.ts` lines
33-87): each `if (xs && xs.length > 0) filters.push({...})` block in source
order. -/
def buildQueryFilters (a : QueryApiRequestsArgs) : List FilterPredicate :=
  let filters : List FilterPredicate := []
  let filters := match a.statusCodes with
    | some l => if 0 < l.length then
        filters ++ [⟨"status_code", .IN, .nums l⟩] else filters
    | none => filters
  let filters := match a.excludeStatusCodes with
    | some l => if 0 < l.length then
        filters ++ [⟨"status_code", .NOT_IN, .nums l⟩] else filters
    | none => filters
  let filters := match a.httpMethods with
    | some l => if 0 < l.length then
        filters ++ [⟨"http_method", .IN, .strs l⟩] else filters
    | none => filters
  let filters := match a.consumerIds with
    | some l => if 0 < l.length then
        filters ++ [⟨"consumer", .IN, .strs l⟩] else filters
    | none => filters
  let filters := match a.serviceIds with
    | some l => if 0 < l.length then
        filters ++ [⟨"gateway_service", .IN, .strs l⟩] else filters
    | none => filters
  let filters := match a.routeIds with
    | some l => if 0 < l.length then
        filters ++ [⟨"route", .IN, .strs l⟩] else filters
    | none => filters
  filters

/-- Modelled from the spec (section 4.2): the rules of the Filter Builder as
the specification words them — in the fixed order status-code inclusion,
status-code exclusion, HTTP methods, consumers, services, routes, each
predicate emitted exactly when the optional list is given and non-empty.
This definition follows the specification text; `buildQueryFilters` follows
the source.  Comparing the two settles the refinement claim. -/
def filterRulesSpec (a : QueryApiRequestsArgs) : List FilterPredicate :=
  (match a.statusCodes with
    | some l => if l ≠ [] then [⟨"status_code", .IN, .nums l⟩] else []
    | none => []) ++
  (match a.excludeStatusCodes with
    | some l => if l ≠ [] then [⟨"status_code", .NOT_IN, .nums l⟩] else []
    | none => []) ++
  (match a.httpMethods with
    | some l => if l ≠ [] then [⟨"http_method", .IN, .strs l⟩] else []
    | none => []) ++
  (match a.consumerIds with
    | some l => if l ≠ [] then [⟨"consumer", .IN, .strs l⟩] else []
    | none => []) ++
  (match a.serviceIds with
    | some l => if l ≠ [] then [⟨"gateway_service", .IN, .strs l⟩] else []
    | none => []) ++
  (match a.routeIds with
    | some l => if l ≠ [] then [⟨"route", .IN, .strs l⟩] else []
    | none => [])

/-- The filter array built by `getConsumerRequests` (`analytics.ts` lines
206-227): the consumer predicate, then — `if (successOnly) ... else if
(failureOnly) ...` — at most one `status_code_grouped` shorthand predicate. -/
def consumerRequestsFilters (consumerId : String)
    (successOnly failureOnly : Bool) : List FilterPredicate :=
  let filters : List FilterPredicate :=
    [⟨"consumer", .IN, .strs [consumerId]⟩]
  if successOnly then
    filters ++ [⟨"status_code_grouped", .IN, .strs ["2XX"]⟩]
  else if failureOnly then
    filters ++ [⟨"status_code_grouped", .IN, .strs ["4XX", "5XX"]⟩]
  else
    filters

/-! ## `getConsumerRequests` statistics (`analytics.ts` lines 229-314) -/

/-- `statusCodeCounts` (`analytics.ts` lines 248-252). -/
def statusCodeCounts (records : List ApiRequestResult) : List (Nat × Nat) :=
  countNumBy resolvedStatus records

/-- Value stored per service in `serviceBreakdown`:
`{ count: number, statusCodes: Record<string, number> }`. -/
structure ServiceData where
  count : Nat
  statusCodes : List (Nat × Nat)
deriving DecidableEq

/-- `serviceBreakdown` (`analytics.ts` lines 254-264): per record, create the
entry `{count: 0, statusCodes: {}}` when absent, then `count++` and bump the
nested numeric-keyed status-code count. -/
def serviceBreakdown (records : List ApiRequestResult) :
    List (String × ServiceData) :=
  accumBy svcKey
    (fun r d => ⟨d.count + 1, bumpNum (resolvedStatus r) d.statusCodes⟩)
    ⟨0, []⟩ records

/-- One element of `statusCodeDistribution` (`analytics.ts` lines 284-288). -/
structure StatusCodeAggregate where
  statusCode : Nat
  count : Nat
  percentage : ℚ
deriving DecidableEq

/-- One element of a nested `statusCodeBreakdown` (`analytics.ts` lines
293-296). -/
structure StatusCount where
  statusCode : Nat
  count : Nat
deriving DecidableEq

/-- One element of `serviceDistribution` (`analytics.ts` lines 289-297). -/
structure ServiceAggregate where
  serviceId : String
  count : Nat
  percentage : ℚ
  statusCodeBreakdown : List StatusCount
deriving DecidableEq

/-- `statusCodeDistribution` (`analytics.ts` lines 284-288):
`Object.entries(statusCodeCounts).map(...).sort((a, b) => b.count - a.count)`. -/
def statusCodeDistribution (records : List ApiRequestResult) :
    List StatusCodeAggregate :=
  sortByCountDesc (fun a => a.count)
    ((statusCodeCounts records).map
      (fun e => ⟨e.1, e.2, pct e.2 records.length⟩))

/-- `serviceDistribution` (`analytics.ts` lines 289-297), with the nested
`statusCodeBreakdown` mapped and sorted the same way. -/
def serviceDistribution (records : List ApiRequestResult) :
    List ServiceAggregate :=
  sortByCountDesc (fun a => a.count)
    ((serviceBreakdown records).map
      (fun e =>
        ⟨e.1, e.2.count, pct e.2.count records.length,
          sortByCountDesc (fun s => s.count)
            (e.2.statusCodes.map (fun s => ⟨s.1, s.2⟩))⟩))

/-- `status >= 200 && status < 300` on the resolved status (`analytics.ts`
lines 242-245). -/
def isSuccess (r : ApiRequestResult) : Bool :=
  decide (200 ≤ resolvedStatus r ∧ resolvedStatus r < 300)

/-- `avgLatency` (`analytics.ts` lines 232, 237-239): `0`, overwritten for a
non-empty result set by `reduce((sum, req) => sum + (req.latencies_response_ms
|| 0), 0) / length`. -/
def avgLatency (records : List ApiRequestResult) : ℚ :=
  if 0 < records.length then
    records.foldl (fun s r => s + latencyOrZero r) 0 / (records.length : ℚ)
  else 0

/-- `successRate` (`analytics.ts` lines 233, 241-246): `0`, overwritten for a
non-empty result set by `(successCount / length) * 100`. -/
def successRateRaw (records : List ApiRequestResult) : ℚ :=
  if 0 < records.length then
    (((records.filter isSuccess).length : ℚ) / (records.length : ℚ)) * 100
  else 0

/-- The `statistics` object of the `getConsumerRequests` response
(`analytics.ts` lines 281-298). -/
structure ConsumerStatistics where
  averageLatencyMs : ℚ
  successRate : ℚ
  statusCodeDistribution : List StatusCodeAggregate
  serviceDistribution : List ServiceAggregate
deriving DecidableEq

/-- `statistics` of `getConsumerRequests` (`analytics.ts` lines 281-298). -/
def consumerStatistics (records : List ApiRequestResult) : ConsumerStatistics :=
  { averageLatencyMs := roundTo2 (avgLatency records)
    successRate := roundTo2 (successRateRaw records)
    statusCodeDistribution := statusCodeDistribution records
    serviceDistribution := serviceDistribution records }

/-- One element of the per-request `requests` list (`analytics.ts` lines
299-313; `queryApiRequests` builds its `requests` entries with the same
`statusCode: req.status_code || req.response_http_status` expression at line
105).  Claim-irrelevant passthrough fields of the larger `queryApiRequests`
entry shape are omitted. -/
structure RequestView where
  timestamp : Option String
  httpMethod : Option String
  uri : Option String
  statusCode : Option Nat
  serviceId : Option String
  routeId : Option String
  latencyTotalMs : Option ℚ
  clientIp : Option String
  traceId : Option String
deriving DecidableEq

/-- The per-request mapping of `getConsumerRequests` (`analytics.ts` lines
299-313). -/
def requestView (r : ApiRequestResult) : RequestView :=
  { timestamp := r.request_start
    httpMethod := r.http_method
    uri := r.request_uri
    statusCode := jsOrNum r.status_code r.response_http_status
    serviceId := r.gateway_service
    routeId := r.route
    latencyTotalMs := r.latencies_response_ms
    clientIp := r.client_ip
    traceId := r.trace_id }

/-- The claim-relevant part of the `getConsumerRequests` response
(`analytics.ts` lines 268-314), as a function of the backend's result set. -/
structure ConsumerRequestsOutput where
  totalRequests : Nat
  filters : List FilterPredicate
  statistics : ConsumerStatistics
  requests : List RequestView
deriving DecidableEq

/-- `getConsumerRequests` (`analytics.ts` lines 196-318), abstracted over the
single backend call: given the built filters' arguments and the backend's
result records, produce the response object. -/
def getConsumerRequests (consumerId : String)
    (successOnly failureOnly : Bool)
    (records : List ApiRequestResult) : ConsumerRequestsOutput :=
  { totalRequests := records.length
    filters := consumerRequestsFilters consumerId successOnly failureOnly
    statistics := consumerStatistics records
    requests := records.map requestView }

/-- The claim-relevant part of the `queryApiRequests` response
(`analytics.ts` lines 91-187): `metadata.filters` is the built filter array
itself (the audit trail), and each request entry resolves `statusCode` with
the falsy-or chain. -/
structure QueryApiRequestsOutput where
  totalRequests : Nat
  filters : List FilterPredicate
  requests : List RequestView
deriving DecidableEq

/-- `queryApiRequests` (`analytics.ts` lines 20-191), abstracted over the
single backend call: build the filters, echo them in the metadata, map the
returned records. -/
def queryApiRequests (a : QueryApiRequestsArgs) (size : Nat)
    (records : List ApiRequestResult) : QueryApiRequestsOutput :=
  { totalRequests := size
    filters := buildQueryFilters a
    requests := records.map requestView }

/-! ## `analyze-failed-requests` groupings (`mcp-konnect-api.js` lines
434-570) -/

/-- `byConsumer` (`mcp-konnect-api.js` lines 478-485): insertion-ordered map
from `req.consumer || "anonymous"` to the array of matching records. -/
def byConsumer (records : List ApiRequestResult) :
    List (String × List ApiRequestResult) :=
  accumBy consumerKeyJs (fun r l => l ++ [r]) [] records

/-- `byService` (`mcp-konnect-api.js` lines 488-495). -/
def byService (records : List ApiRequestResult) :
    List (String × List ApiRequestResult) :=
  accumBy svcKeyJs (fun r l => l ++ [r]) [] records

/-- `byMethod` (`mcp-konnect-api.js` lines 498-505). -/
def byMethod (records : List ApiRequestResult) :
    List (String × List ApiRequestResult) :=
  accumBy methodKeyJs (fun r l => l ++ [r]) [] records

/-- `Array.from(new Set(xs))`: first occurrences in insertion order. -/
def dedupSeen {α : Type} [DecidableEq α] (seen : List α) : List α → List α
  | [] => []
  | x :: xs =>
    if x ∈ seen then dedupSeen seen xs else x :: dedupSeen (seen ++ [x]) xs

/-- `Array.from(new Set(xs))` starting from the empty set. -/
def dedupKeepFirst {α : Type} [DecidableEq α] (l : List α) : List α :=
  dedupSeen [] l

/-- One element of `summary.byConsumer` / `summary.byService`
(`mcp-konnect-api.js` lines 527-544). -/
structure FailureGroupAggregate where
  id : String
  count : Nat
  percentage : ℚ
  commonStatusCodes : List (Option Nat)
deriving DecidableEq

/-- One element of `summary.byHttpMethod` (`mcp-konnect-api.js` lines
545-551). -/
structure MethodAggregate where
  httpMethod : String
  count : Nat
  percentage : ℚ
deriving DecidableEq

/-- Map one insertion-ordered group entry to its aggregate
(`mcp-konnect-api.js` lines 528-533): count is the group array's length,
percentage is against all failures, `commonStatusCodes` dedups the falsy-or
resolved statuses in first-occurrence order. -/
def failureGroupAggregate (total : Nat)
    (e : String × List ApiRequestResult) : FailureGroupAggregate :=
  ⟨e.1, e.2.length, pct e.2.length total,
    dedupKeepFirst (e.2.map displayStatus)⟩

/-- `summary.byConsumer` before the cap (`mcp-konnect-api.js` lines 527-534):
mapped to aggregates and stably sorted by count descending. -/
def byConsumerSorted (records : List ApiRequestResult) :
    List FailureGroupAggregate :=
  sortByCountDesc (fun a => a.count)
    ((byConsumer records).map (failureGroupAggregate records.length))

/-- `summary.byConsumer` (`mcp-konnect-api.js` lines 527-535): the sorted
aggregates capped with `.slice(0, 5)` after sorting. -/
def byConsumerTop5 (records : List ApiRequestResult) :
    List FailureGroupAggregate :=
  (byConsumerSorted records).take 5

/-- `summary.byService` before the cap (`mcp-konnect-api.js` lines 536-543). -/
def byServiceSorted (records : List ApiRequestResult) :
    List FailureGroupAggregate :=
  sortByCountDesc (fun a => a.count)
    ((byService records).map (failureGroupAggregate records.length))

/-- `summary.byService` (`mcp-konnect-api.js` lines 536-544): capped with
`.slice(0, 5)` after sorting. -/
def byServiceTop5 (records : List ApiRequestResult) :
    List FailureGroupAggregate :=
  (byServiceSorted records).take 5

/-- `summary.byHttpMethod` (`mcp-konnect-api.js` lines 545-551): no cap. -/
def byHttpMethodSorted (records : List ApiRequestResult) :
    List MethodAggregate :=
  sortByCountDesc (fun a => a.count)
    ((byMethod records).map
      (fun e => ⟨e.1, e.2.length, pct e.2.length records.length⟩))

/-! ## `get-service-requests` route breakdown (`mcp-konnect-api.js` lines
878-888 and 922-930) -/

/-- One element of `routeDistribution` (`mcp-konnect-api.js` lines 922-930),
projected to the fields the ordering claims speak about; the nested
`statusCodeBreakdown` of that aggregate is not modelled (the top-level sort
never inspects it). -/
structure RouteAggregate where
  routeId : String
  count : Nat
  percentage : ℚ
deriving DecidableEq

/-- The `count` component of `routeBreakdown` (`mcp-konnect-api.js` lines
878-888): insertion-ordered map from `req.route || "unknown"` to its count. -/
def routeCounts (records : List ApiRequestResult) : List (String × Nat) :=
  accumBy routeKeyJs (fun _ c => c + 1) 0 records

/-- `routeDistribution` (`mcp-konnect-api.js` lines 922-930), projected to
route id, count and percentage, sorted by count descending. -/
def routeDistribution (records : List ApiRequestResult) :
    List RouteAggregate :=
  sortByCountDesc (fun a => a.count)
    ((routeCounts records).map
      (fun e => ⟨e.1, e.2, pct e.2 records.length⟩))

/-! ## Stable-sort lemmas -/

theorem mem_insertByCnt {α : Type} (cnt : α → Nat) (x y : α) (l : List α) :
    y ∈ insertByCnt cnt x l ↔ y = x ∨ y ∈ l := by
  induction l with
  | nil => simp [insertByCnt]
  | cons z zs ih =>
    by_cases h : cnt z ≤ cnt x
    · simp [insertByCnt, h, List.mem_cons]
    · simp only [insertByCnt, if_neg h, List.mem_cons, ih]
      tauto

theorem insertByCnt_perm {α : Type} (cnt : α → Nat) (x : α) (l : List α) :
    (insertByCnt cnt x l).Perm (x :: l) := by
  induction l with
  | nil => exact List.Perm.refl _
  | cons z zs ih =>
    by_cases h : cnt z ≤ cnt x
    · simp only [insertByCnt, if_pos h]
      exact List.Perm.refl _
    · simp only [insertByCnt, if_neg h]
      exact (ih.cons z).trans (List.Perm.swap x z zs)

theorem sortByCountDesc_perm {α : Type} (cnt : α → Nat) (l : List α) :
    (sortByCountDesc cnt l).Perm l := by
  induction l with
  | nil => exact List.Perm.refl _
  | cons x xs ih =>
    exact (insertByCnt_perm cnt x _).trans (ih.cons x)

theorem mem_sortByCountDesc {α : Type} (cnt : α → Nat) (x : α) (l : List α) :
    x ∈ sortByCountDesc cnt l ↔ x ∈ l :=
  (sortByCountDesc_perm cnt l).mem_iff

theorem pairwise_insertByCnt {α : Type} (cnt : α → Nat) {S : α → α → Prop}
    {x : α} {m : List α}
    (hm : List.Pairwise (fun a b => cnt b < cnt a ∨ (cnt a = cnt b ∧ S a b)) m)
    (hx : ∀ y ∈ m, S x y) :
    List.Pairwise (fun a b => cnt b < cnt a ∨ (cnt a = cnt b ∧ S a b))
      (insertByCnt cnt x m) := by
  induction m with
  | nil => simp [insertByCnt]
  | cons y ys ih =>
    obtain ⟨hy, hys⟩ := List.pairwise_cons.1 hm
    by_cases h : cnt y ≤ cnt x
    · simp only [insertByCnt, if_pos h]
      refine List.Pairwise.cons ?_ hm
      intro z hz
      have hzx : cnt z ≤ cnt x := by
        rcases List.mem_cons.1 hz with rfl | hzys
        · exact h
        · rcases hy z hzys with h' | ⟨h', _⟩
          · omega
          · omega
      rcases Nat.lt_or_ge (cnt z) (cnt x) with h' | h'
      · exact Or.inl h'
      · exact Or.inr ⟨by omega, hx z hz⟩
    · simp only [insertByCnt, if_neg h]
      refine List.Pairwise.cons ?_ (ih hys (fun z hz => hx z (List.mem_cons_of_mem _ hz)))
      intro z hz
      rcases (mem_insertByCnt cnt x z ys).1 hz with rfl | hzys
      · exact Or.inl (by omega)
      · exact hy z hzys

theorem pairwise_sortByCountDesc {α : Type} (cnt : α → Nat) {S : α → α → Prop}
    {l : List α} (h : List.Pairwise S l) :
    List.Pairwise (fun a b => cnt b < cnt a ∨ (cnt a = cnt b ∧ S a b))
      (sortByCountDesc cnt l) := by
  induction l with
  | nil => simp [sortByCountDesc]
  | cons x xs ih =>
    obtain ⟨hx, hxs⟩ := List.pairwise_cons.1 h
    exact pairwise_insertByCnt cnt (ih hxs)
      (fun y hy => hx y ((sortByCountDesc_perm cnt xs).mem_iff.1 hy))

theorem pairwise_true {α : Type} (l : List α) :
    List.Pairwise (fun _ _ => True) l := by
  induction l with
  | nil => exact List.Pairwise.nil
  | cons x xs ih => exact List.Pairwise.cons (fun _ _ => trivial) ih

/-- The sorted-by-count-descending part alone, with the tie-break forgotten. -/
theorem sorted_sortByCountDesc {α : Type} (cnt : α → Nat) (l : List α) :
    List.Pairwise (fun a b => cnt b ≤ cnt a) (sortByCountDesc cnt l) :=
  (pairwise_sortByCountDesc cnt (pairwise_true l)).imp
    (fun h => by rcases h with h | ⟨h, _⟩ <;> omega)

/-- Count-descending order together with the tie-break order `S` of the
pre-sort enumeration. -/
theorem sorted_tiebreak_sortByCountDesc {α : Type} (cnt : α → Nat)
    {S : α → α → Prop} {l : List α} (h : List.Pairwise S l) :
    List.Pairwise (fun a b => cnt b ≤ cnt a ∧ (cnt a = cnt b → S a b))
      (sortByCountDesc cnt l) :=
  (pairwise_sortByCountDesc cnt h).imp
    (fun hab => by
      rcases hab with h' | ⟨h', h''⟩
      · exact ⟨by omega, fun he => by omega⟩
      · exact ⟨by omega, fun _ => h''⟩)

/-! ## Numeric-keyed count-map lemmas -/

theorem mem_keys_bumpNum (k x : Nat) (m : List (Nat × Nat)) :
    x ∈ (bumpNum k m).map Prod.fst ↔ x = k ∨ x ∈ m.map Prod.fst := by
  induction m with
  | nil => simp [bumpNum]
  | cons e rest ih =>
    obtain ⟨k', c⟩ := e
    by_cases h1 : k = k'
    · subst h1
      have he : bumpNum k ((k, c) :: rest) = (k, c + 1) :: rest := by
        simp [bumpNum]
      rw [he]
      simp only [List.map_cons, List.mem_cons]
      tauto
    · by_cases h2 : k < k'
      · simp only [bumpNum, if_neg h1, if_pos h2, List.map_cons, List.mem_cons]
      · simp only [bumpNum, if_neg h1, if_neg h2, List.map_cons, List.mem_cons, ih]
        tauto

theorem sum_bumpNum (k : Nat) (m : List (Nat × Nat)) :
    ((bumpNum k m).map Prod.snd).sum = (m.map Prod.snd).sum + 1 := by
  induction m with
  | nil => simp [bumpNum]
  | cons e rest ih =>
    obtain ⟨k', c⟩ := e
    by_cases h1 : k = k'
    · simp only [bumpNum, if_pos h1, List.map_cons, List.sum_cons]
      omega
    · by_cases h2 : k < k'
      · simp only [bumpNum, if_neg h1, if_pos h2, List.map_cons, List.sum_cons]
        omega
      · simp only [bumpNum, if_neg h1, if_neg h2, List.map_cons, List.sum_cons, ih]
        omega

theorem sortedKeys_bumpNum (k : Nat) (m : List (Nat × Nat))
    (h : List.Pairwise (· < ·) (m.map Prod.fst)) :
    List.Pairwise (· < ·) ((bumpNum k m).map Prod.fst) := by
  induction m with
  | nil => simp [bumpNum]
  | cons e rest ih =>
    obtain ⟨k', c⟩ := e
    rw [List.map_cons, List.pairwise_cons] at h
    obtain ⟨h1, h2⟩ := h
    by_cases e1 : k = k'
    · subst e1
      simp only [bumpNum, if_pos rfl, List.map_cons]
      exact List.pairwise_cons.2 ⟨h1, h2⟩
    · by_cases e2 : k < k'
      · simp only [bumpNum, if_neg e1, if_pos e2, List.map_cons]
        refine List.pairwise_cons.2 ⟨?_, List.pairwise_cons.2 ⟨h1, h2⟩⟩
        intro x hx
        rcases List.mem_cons.1 hx with rfl | hx
        · exact e2
        · exact lt_trans e2 (h1 x hx)
      · simp only [bumpNum, if_neg e1, if_neg e2, List.map_cons]
        refine List.pairwise_cons.2 ⟨?_, ih h2⟩
        intro x hx
        rcases (mem_keys_bumpNum k x rest).1 hx with rfl | hx
        · omega
        · exact h1 x hx

theorem sum_countNumBy_aux (f : ApiRequestResult → Nat)
    (l : List ApiRequestResult) :
    ∀ m, (((l.foldl (fun m r => bumpNum (f r) m) m)).map Prod.snd).sum
      = (m.map Prod.snd).sum + l.length := by
  induction l with
  | nil => intro m; simp
  | cons r rest ih =>
    intro m
    simp only [List.foldl_cons, List.length_cons]
    rw [ih, sum_bumpNum]
    omega

theorem sum_countNumBy (f : ApiRequestResult → Nat)
    (records : List ApiRequestResult) :
    ((countNumBy f records).map Prod.snd).sum = records.length := by
  simpa using sum_countNumBy_aux f records []

theorem sortedKeys_countNumBy_aux (f : ApiRequestResult → Nat)
    (l : List ApiRequestResult) :
    ∀ m, List.Pairwise (· < ·) (m.map Prod.fst) →
      List.Pairwise (· < ·)
        ((l.foldl (fun m r => bumpNum (f r) m) m).map Prod.fst) := by
  induction l with
  | nil => intro m hm; simpa using hm
  | cons r rest ih =>
    intro m hm
    simp only [List.foldl_cons]
    exact ih _ (sortedKeys_bumpNum (f r) m hm)

theorem sortedKeys_countNumBy (f : ApiRequestResult → Nat)
    (records : List ApiRequestResult) :
    List.Pairwise (· < ·) ((countNumBy f records).map Prod.fst) := by
  exact sortedKeys_countNumBy_aux f records [] (by simp)

/-! ## Insertion-ordered map lemmas -/

theorem keys_bumpWith {κ ν : Type} [DecidableEq κ] (k : κ) (upd : ν → ν)
    (dflt : ν) (m : List (κ × ν)) :
    (bumpWith k upd dflt m).map Prod.fst =
      if k ∈ m.map Prod.fst then m.map Prod.fst else m.map Prod.fst ++ [k] := by
  induction m with
  | nil => simp [bumpWith]
  | cons e rest ih =>
    obtain ⟨k', v⟩ := e
    by_cases h : k = k'
    · subst h
      simp [bumpWith]
    · by_cases h2 : k ∈ rest.map Prod.fst
      · simp [bumpWith, h, ih, h2, List.mem_cons]
      · simp [bumpWith, h, ih, h2, List.mem_cons]

theorem mem_keys_bumpWith_self {κ ν : Type} [DecidableEq κ] (k : κ)
    (upd : ν → ν) (dflt : ν) (m : List (κ × ν)) :
    k ∈ (bumpWith k upd dflt m).map Prod.fst := by
  rw [keys_bumpWith]
  by_cases h : k ∈ m.map Prod.fst
  · simp only [if_pos h]
    exact h
  · simp [h]

theorem mem_keys_bumpWith_mono {κ ν : Type} [DecidableEq κ] (k : κ)
    (upd : ν → ν) (dflt : ν) (m : List (κ × ν)) (x : κ)
    (hx : x ∈ m.map Prod.fst) :
    x ∈ (bumpWith k upd dflt m).map Prod.fst := by
  rw [keys_bumpWith]
  by_cases h : k ∈ m.map Prod.fst
  · simpa [h] using hx
  · simp [h, hx]

theorem mem_keys_accumBy_aux {κ ν : Type} [DecidableEq κ]
    (key : ApiRequestResult → κ) (upd : ApiRequestResult → ν → ν) (dflt : ν)
    (l : List ApiRequestResult) :
    ∀ (m : List (κ × ν)) (x : κ),
      (x ∈ m.map Prod.fst ∨ ∃ r ∈ l, key r = x) →
      x ∈ (l.foldl (fun m r => bumpWith (key r) (upd r) dflt m) m).map
        Prod.fst := by
  induction l with
  | nil =>
    intro m x h
    rcases h with h | ⟨r, hr, _⟩
    · simpa using h
    · simp at hr
  | cons r rest ih =>
    intro m x h
    simp only [List.foldl_cons]
    apply ih
    rcases h with h | ⟨r', hr', hk⟩
    · exact Or.inl (mem_keys_bumpWith_mono (key r) (upd r) dflt m x h)
    · rcases List.mem_cons.1 hr' with rfl | hr'
      · subst hk
        exact Or.inl (mem_keys_bumpWith_self (key r') (upd r') dflt m)
      · exact Or.inr ⟨r', hr', hk⟩

theorem mem_keys_accumBy {κ ν : Type} [DecidableEq κ]
    (key : ApiRequestResult → κ) (upd : ApiRequestResult → ν → ν) (dflt : ν)
    (records : List ApiRequestResult) (r : ApiRequestResult)
    (hr : r ∈ records) :
    key r ∈ (accumBy key upd dflt records).map Prod.fst :=
  mem_keys_accumBy_aux key upd dflt records [] (key r) (Or.inr ⟨r, hr, rfl⟩)

theorem sum_bumpWith {κ ν : Type} [DecidableEq κ] (μ : ν → Nat) (k : κ)
    (upd : ν → ν) (dflt : ν) (h1 : ∀ v, μ (upd v) = μ v + 1)
    (h0 : μ (upd dflt) = 1) (m : List (κ × ν)) :
    ((bumpWith k upd dflt m).map (fun e => μ e.2)).sum
      = (m.map (fun e => μ e.2)).sum + 1 := by
  induction m with
  | nil => simp [bumpWith, h0]
  | cons e rest ih =>
    obtain ⟨k', v⟩ := e
    by_cases h : k = k'
    · simp only [bumpWith, if_pos h, List.map_cons, List.sum_cons, h1]
      omega
    · simp only [bumpWith, if_neg h, List.map_cons, List.sum_cons, ih]
      omega

theorem sum_accumBy_aux {κ ν : Type} [DecidableEq κ] (μ : ν → Nat)
    (key : ApiRequestResult → κ) (upd : ApiRequestResult → ν → ν) (dflt : ν)
    (h1 : ∀ r v, μ (upd r v) = μ v + 1) (h0 : ∀ r, μ (upd r dflt) = 1)
    (l : List ApiRequestResult) :
    ∀ m : List (κ × ν),
      ((l.foldl (fun m r => bumpWith (key r) (upd r) dflt m) m).map
        (fun e => μ e.2)).sum
      = (m.map (fun e => μ e.2)).sum + l.length := by
  induction l with
  | nil => intro m; simp
  | cons r rest ih =>
    intro m
    simp only [List.foldl_cons, List.length_cons]
    rw [ih, sum_bumpWith μ (key r) (upd r) dflt (h1 r) (h0 r)]
    omega

theorem sum_accumBy {κ ν : Type} [DecidableEq κ] (μ : ν → Nat)
    (key : ApiRequestResult → κ) (upd : ApiRequestResult → ν → ν) (dflt : ν)
    (h1 : ∀ r v, μ (upd r v) = μ v + 1) (h0 : ∀ r, μ (upd r dflt) = 1)
    (records : List ApiRequestResult) :
    ((accumBy key upd dflt records).map (fun e => μ e.2)).sum
      = records.length := by
  simpa using sum_accumBy_aux μ key upd dflt h1 h0 records []

theorem pred_bumpWith {κ ν : Type} [DecidableEq κ] (P : ν → Prop) (k : κ)
    (upd : ν → ν) (dflt : ν) (hupd : ∀ v, P v → P (upd v))
    (h0 : P (upd dflt)) (m : List (κ × ν)) (hm : ∀ e ∈ m, P e.2) :
    ∀ e ∈ bumpWith k upd dflt m, P e.2 := by
  induction m with
  | nil =>
    intro e he
    simp only [bumpWith, List.mem_singleton] at he
    subst he
    exact h0
  | cons e0 rest ih =>
    obtain ⟨k', v⟩ := e0
    intro e he
    by_cases h : k = k'
    · rw [bumpWith, if_pos h] at he
      rcases List.mem_cons.1 he with rfl | he
      · exact hupd v (hm (k', v) (List.mem_cons_self _ _))
      · exact hm e (List.mem_cons_of_mem _ he)
    · rw [bumpWith, if_neg h] at he
      rcases List.mem_cons.1 he with rfl | he
      · exact hm (k', v) (List.mem_cons_self _ _)
      · exact ih (fun e' he' => hm e' (List.mem_cons_of_mem _ he')) e he

theorem pred_accumBy_aux {κ ν : Type} [DecidableEq κ] (P : ν → Prop)
    (key : ApiRequestResult → κ) (upd : ApiRequestResult → ν → ν) (dflt : ν)
    (hupd : ∀ r v, P v → P (upd r v)) (h0 : ∀ r, P (upd r dflt))
    (l : List ApiRequestResult) :
    ∀ m : List (κ × ν), (∀ e ∈ m, P e.2) →
      ∀ e ∈ l.foldl (fun m r => bumpWith (key r) (upd r) dflt m) m, P e.2 := by
  induction l with
  | nil => intro m hm; simpa using hm
  | cons r rest ih =>
    intro m hm
    simp only [List.foldl_cons]
    exact ih _ (pred_bumpWith P (key r) (upd r) dflt (hupd r) (h0 r) m hm)

theorem pred_accumBy {κ ν : Type} [DecidableEq κ] (P : ν → Prop)
    (key : ApiRequestResult → κ) (upd : ApiRequestResult → ν → ν) (dflt : ν)
    (hupd : ∀ r v, P v → P (upd r v)) (h0 : ∀ r, P (upd r dflt))
    (records : List ApiRequestResult) :
    ∀ e ∈ accumBy key upd dflt records, P e.2 :=
  pred_accumBy_aux P key upd dflt hupd h0 records [] (by simp)

/-! ## First-appearance order of insertion-ordered keys -/

/-- The key sequence produced by an insertion-ordered grouping: fold over the
observed keys, appending each key not seen before. -/
def keySeqAux {κ : Type} [DecidableEq κ] (acc : List κ) : List κ → List κ
  | [] => acc
  | k :: ks => keySeqAux (if k ∈ acc then acc else acc ++ [k]) ks

theorem keys_accumBy_aux {κ ν : Type} [DecidableEq κ]
    (key : ApiRequestResult → κ) (upd : ApiRequestResult → ν → ν) (dflt : ν)
    (l : List ApiRequestResult) :
    ∀ m : List (κ × ν),
      (l.foldl (fun m r => bumpWith (key r) (upd r) dflt m) m).map Prod.fst
        = keySeqAux (m.map Prod.fst) (l.map key) := by
  induction l with
  | nil => intro m; simp [keySeqAux]
  | cons r rest ih =>
    intro m
    simp only [List.foldl_cons, List.map_cons, keySeqAux]
    rw [ih, keys_bumpWith]

theorem keys_accumBy {κ ν : Type} [DecidableEq κ]
    (key : ApiRequestResult → κ) (upd : ApiRequestResult → ν → ν) (dflt : ν)
    (records : List ApiRequestResult) :
    (accumBy key upd dflt records).map Prod.fst
      = keySeqAux [] (records.map key) :=
  keys_accumBy_aux key upd dflt records []

theorem fIdx_cons_self {κ : Type} [DecidableEq κ] (k : κ) (xs : List κ) :
    fIdx k (k :: xs) = 0 := by
  simp [fIdx]

theorem fIdx_cons_ne {κ : Type} [DecidableEq κ] (t k : κ) (h : t ≠ k)
    (xs : List κ) : fIdx k (t :: xs) = fIdx k xs + 1 := by
  simp [fIdx, h]

theorem keySeqAux_spec {κ : Type} [DecidableEq κ] (xs : List κ) :
    ∀ acc : List κ, ∃ new : List κ,
      keySeqAux acc xs = acc ++ new ∧ (∀ k ∈ new, k ∉ acc) ∧
      List.Pairwise (fun a b => fIdx a xs < fIdx b xs) new := by
  induction xs with
  | nil =>
    intro acc
    exact ⟨[], by simp [keySeqAux], by simp, List.Pairwise.nil⟩
  | cons x xs ih =>
    intro acc
    by_cases h : x ∈ acc
    · obtain ⟨new, e1, e2, e3⟩ := ih acc
      refine ⟨new, by simp [keySeqAux, h, e1], e2, ?_⟩
      refine e3.imp_of_mem ?_
      intro a b ha hb hab
      have hax : x ≠ a := fun he => (e2 a ha) (he ▸ h)
      have hbx : x ≠ b := fun he => (e2 b hb) (he ▸ h)
      rw [fIdx_cons_ne x a hax, fIdx_cons_ne x b hbx]
      omega
    · obtain ⟨new, e1, e2, e3⟩ := ih (acc ++ [x])
      refine ⟨x :: new, ?_, ?_, ?_⟩
      · simp only [keySeqAux, if_neg h, e1, List.append_assoc, List.singleton_append]
      · intro k hk
        rcases List.mem_cons.1 hk with rfl | hk
        · exact h
        · exact fun hka => (e2 k hk) (List.mem_append_left _ hka)
      · refine List.Pairwise.cons ?_ ?_
        · intro b hb
          have hbx : x ≠ b := fun he => (e2 b hb) (by simp [he])
          rw [fIdx_cons_self, fIdx_cons_ne x b hbx]
          omega
        · refine e3.imp_of_mem ?_
          intro a b ha hb hab
          have hax : x ≠ a := fun he => (e2 a ha) (by simp [he])
          have hbx : x ≠ b := fun he => (e2 b hb) (by simp [he])
          rw [fIdx_cons_ne x a hax, fIdx_cons_ne x b hbx]
          omega

theorem pairwise_fIdx_keySeq {κ : Type} [DecidableEq κ] (xs : List κ) :
    List.Pairwise (fun a b => fIdx a xs < fIdx b xs) (keySeqAux [] xs) := by
  obtain ⟨new, e1, _, e3⟩ := keySeqAux_spec xs []
  rw [e1]
  simpa using e3

theorem pairwise_fIdx_keys_accumBy {κ ν : Type} [DecidableEq κ]
    (key : ApiRequestResult → κ) (upd : ApiRequestResult → ν → ν) (dflt : ν)
    (records : List ApiRequestResult) :
    List.Pairwise
      (fun a b => fIdx a (records.map key) < fIdx b (records.map key))
      ((accumBy key upd dflt records).map Prod.fst) := by
  rw [keys_accumBy]
  exact pairwise_fIdx_keySeq (records.map key)

/-! ## Derived pipeline lemmas -/

theorem foldl_add_map_sum {α : Type} (f : α → ℚ) (l : List α) (s : ℚ) :
    l.foldl (fun a r => a + f r) s = s + (l.map f).sum := by
  induction l generalizing s with
  | nil => simp
  | cons x xs ih => simp [ih, add_assoc]

theorem sum_map_sortByCountDesc {α : Type} (cnt : α → Nat) (f : α → Nat)
    (l : List α) :
    ((sortByCountDesc cnt l).map f).sum = (l.map f).sum :=
  ((sortByCountDesc_perm cnt l).map f).sum_eq

theorem floor_int_add_half (n : ℤ) : ⌊(n : ℚ) + 1/2⌋ = n := by
  rw [Int.floor_int_add]
  norm_num

theorem roundHalfAway_intCast (n : ℤ) : roundHalfAway (n : ℚ) = n := by
  unfold roundHalfAway
  by_cases h : (n : ℚ) < 0
  · rw [if_pos h]
    have he : -(n : ℚ) + 1/2 = ((-n : ℤ) : ℚ) + 1/2 := by push_cast; ring
    rw [he, floor_int_add_half]
    omega
  · rw [if_neg h]
    exact floor_int_add_half n

theorem roundTo2_intCast (n : ℤ) : roundTo2 (n : ℚ) = (n : ℚ) := by
  unfold roundTo2
  have he : (n : ℚ) * 100 = ((n * 100 : ℤ) : ℚ) := by push_cast; ring
  rw [he, roundHalfAway_intCast]
  push_cast
  field_simp

theorem roundTo2_zero : roundTo2 0 = 0 := by
  have h := roundTo2_intCast 0
  simpa using h

theorem keys_countNumBy_aux (f : ApiRequestResult → Nat)
    (l : List ApiRequestResult) :
    ∀ (m : List (Nat × Nat)) (x : Nat),
      x ∈ (l.foldl (fun m r => bumpNum (f r) m) m).map Prod.fst →
      x ∈ m.map Prod.fst ∨ ∃ r ∈ l, f r = x := by
  induction l with
  | nil =>
    intro m x h
    exact Or.inl (by simpa using h)
  | cons r rest ih =>
    intro m x h
    simp only [List.foldl_cons] at h
    rcases ih _ x h with h' | ⟨r', hr', hx⟩
    · rcases (mem_keys_bumpNum (f r) x m).1 h' with rfl | h''
      · exact Or.inr ⟨r, List.mem_cons_self _ _, rfl⟩
      · exact Or.inl h''
    · exact Or.inr ⟨r', List.mem_cons_of_mem _ hr', hx⟩

theorem keys_countNumBy_image (f : ApiRequestResult → Nat)
    (records : List ApiRequestResult) (x : Nat)
    (hx : x ∈ (countNumBy f records).map Prod.fst) :
    ∃ r ∈ records, f r = x := by
  rcases keys_countNumBy_aux f records [] x hx with h | h
  · simp at h
  · exact h

theorem mem_ids_sortByCountDesc_map {β α κ : Type} (cnt : α → Nat)
    (mk : β → α) (gid : α → κ) (l : List β) (fst : β → κ)
    (hid : ∀ e, gid (mk e) = fst e) (k : κ) (hk : k ∈ l.map fst) :
    k ∈ (sortByCountDesc cnt (l.map mk)).map gid := by
  obtain ⟨e, he, rfl⟩ := List.mem_map.1 hk
  exact List.mem_map.2
    ⟨mk e, (mem_sortByCountDesc cnt _ _).2 (List.mem_map.2 ⟨e, he, rfl⟩), hid e⟩

theorem take_drop_counts {α : Type} (cnt : α → Nat) (l : List α) (n : Nat) :
    ∀ a ∈ (sortByCountDesc cnt l).take n,
      ∀ b ∈ (sortByCountDesc cnt l).drop n, cnt b ≤ cnt a := by
  have h := sorted_sortByCountDesc cnt l
  rw [← List.take_append_drop n (sortByCountDesc cnt l)] at h
  exact (List.pairwise_append.1 h).2.2

theorem pairwise_fIdx_aggs {κ ν α : Type} [DecidableEq κ]
    (key : ApiRequestResult → κ) (upd : ApiRequestResult → ν → ν) (dflt : ν)
    (records : List ApiRequestResult) (mk : κ × ν → α) (gid : α → κ)
    (hid : ∀ e, gid (mk e) = e.1) :
    List.Pairwise
      (fun a b => fIdx (gid a) (records.map key) < fIdx (gid b) (records.map key))
      ((accumBy key upd dflt records).map mk) := by
  rw [List.pairwise_map]
  have h := pairwise_fIdx_keys_accumBy key upd dflt records
  rw [List.pairwise_map] at h
  refine h.imp ?_
  intro a b hab
  rw [hid, hid]
  exact hab

theorem sum_statusCodeDistribution (records : List ApiRequestResult) :
    ((statusCodeDistribution records).map (fun g => g.count)).sum
      = records.length := by
  unfold statusCodeDistribution
  rw [sum_map_sortByCountDesc, List.map_map]
  exact sum_countNumBy resolvedStatus records

theorem sum_serviceDistribution (records : List ApiRequestResult) :
    ((serviceDistribution records).map (fun g => g.count)).sum
      = records.length := by
  unfold serviceDistribution
  rw [sum_map_sortByCountDesc, List.map_map]
  exact sum_accumBy (fun d : ServiceData => d.count) svcKey
    (fun r (d : ServiceData) =>
      (⟨d.count + 1, bumpNum (resolvedStatus r) d.statusCodes⟩ : ServiceData))
    (⟨0, []⟩ : ServiceData) (fun _ _ => rfl) (fun _ => rfl) records

theorem pct_statusCodeDistribution (records : List ApiRequestResult) :
    ∀ g ∈ statusCodeDistribution records,
      g.percentage = pct g.count records.length := by
  intro g hg
  unfold statusCodeDistribution at hg
  rw [mem_sortByCountDesc] at hg
  obtain ⟨e, _, rfl⟩ := List.mem_map.1 hg
  rfl

theorem pct_serviceDistribution (records : List ApiRequestResult) :
    ∀ g ∈ serviceDistribution records,
      g.percentage = pct g.count records.length := by
  intro g hg
  unfold serviceDistribution at hg
  rw [mem_sortByCountDesc] at hg
  obtain ⟨e, _, rfl⟩ := List.mem_map.1 hg
  rfl

theorem serviceBreakdown_nested_sum (records : List ApiRequestResult) :
    ∀ e ∈ serviceBreakdown records,
      ((e.2.statusCodes).map Prod.snd).sum = e.2.count := by
  refine pred_accumBy
    (fun d : ServiceData => ((d.statusCodes).map Prod.snd).sum = d.count)
    svcKey (fun r (d : ServiceData) =>
      (⟨d.count + 1, bumpNum (resolvedStatus r) d.statusCodes⟩ : ServiceData))
    (⟨0, []⟩ : ServiceData) ?_ ?_ records
  · intro r v hv
    show ((bumpNum (resolvedStatus r) v.statusCodes).map Prod.snd).sum
      = v.count + 1
    rw [sum_bumpNum, hv]
  · intro r
    show ((bumpNum (resolvedStatus r) ([] : List (Nat × Nat))).map
      Prod.snd).sum = 0 + 1
    simp [bumpNum]

/-- C1: For every record set, each grouped distribution (status-code,
consumer, service, route, method) is sorted by count descending, and ties
are broken deterministically: numeric group keys (status codes) tie-break
in ascending numeric key order; non-numeric identifier keys (consumer,
service, route, method) tie-break in order of first appearance in the
input record sequence. -/
theorem grouped_distributions_sorted_with_deterministic_ties
    (records : List ApiRequestResult) :
    List.Pairwise
      (fun a b => b.count ≤ a.count ∧
        (a.count = b.count → a.statusCode < b.statusCode))
      (statusCodeDistribution records)
  ∧ List.Pairwise
      (fun a b => b.count ≤ a.count ∧ (a.count = b.count →
        fIdx a.serviceId (records.map svcKey)
          < fIdx b.serviceId (records.map svcKey)))
      (serviceDistribution records)
  ∧ List.Pairwise
      (fun a b => b.count ≤ a.count ∧ (a.count = b.count →
        fIdx a.id (records.map consumerKeyJs)
          < fIdx b.id (records.map consumerKeyJs)))
      (byConsumerSorted records)
  ∧ List.Pairwise
      (fun a b => b.count ≤ a.count ∧ (a.count = b.count →
        fIdx a.id (records.map svcKeyJs)
          < fIdx b.id (records.map svcKeyJs)))
      (byServiceSorted records)
  ∧ List.Pairwise
      (fun a b => b.count ≤ a.count ∧ (a.count = b.count →
        fIdx a.httpMethod (records.map methodKeyJs)
          < fIdx b.httpMethod (records.map methodKeyJs)))
      (byHttpMethodSorted records)
  ∧ List.Pairwise
      (fun a b => b.count ≤ a.count ∧ (a.count = b.count →
        fIdx a.routeId (records.map routeKeyJs)
          < fIdx b.routeId (records.map routeKeyJs)))
      (routeDistribution records) := by
  refine ⟨?_, ?_, ?_, ?_, ?_, ?_⟩
  · unfold statusCodeDistribution
    refine sorted_tiebreak_sortByCountDesc _ ?_
    have h := sortedKeys_countNumBy resolvedStatus records
    rw [List.pairwise_map] at h
    rw [List.pairwise_map]
    exact h
  · unfold serviceDistribution
    exact sorted_tiebreak_sortByCountDesc _
      (pairwise_fIdx_aggs svcKey _ _ records _ (fun g : ServiceAggregate => g.serviceId)
        (fun _ => rfl))
  · unfold byConsumerSorted
    exact sorted_tiebreak_sortByCountDesc _
      (pairwise_fIdx_aggs consumerKeyJs _ _ records _ (fun g : FailureGroupAggregate => g.id)
        (fun _ => rfl))
  · unfold byServiceSorted
    exact sorted_tiebreak_sortByCountDesc _
      (pairwise_fIdx_aggs svcKeyJs _ _ records _ (fun g : FailureGroupAggregate => g.id)
        (fun _ => rfl))
  · unfold byHttpMethodSorted
    exact sorted_tiebreak_sortByCountDesc _
      (pairwise_fIdx_aggs methodKeyJs _ _ records _ (fun g : MethodAggregate => g.httpMethod)
        (fun _ => rfl))
  · unfold routeDistribution
    exact sorted_tiebreak_sortByCountDesc _
      (pairwise_fIdx_aggs routeKeyJs _ _ records _ (fun g : RouteAggregate => g.routeId)
        (fun _ => rfl))

/-- C2: For every record set grouped by a dimension, the counts of the
produced aggregates sum to the total number of records, each percentage is
`round(count / total * 100, 2)` against the total record count, and an
empty record set yields an empty distribution, so no division by zero
occurs. -/
theorem grouped_aggregate_invariants (records : List ApiRequestResult) :
    ((statusCodeDistribution records).map (fun g => g.count)).sum
        = records.length
  ∧ ((serviceDistribution records).map (fun g => g.count)).sum
        = records.length
  ∧ (∀ g ∈ statusCodeDistribution records,
      g.percentage = roundTo2 ((g.count : ℚ) / (records.length : ℚ) * 100))
  ∧ (∀ g ∈ serviceDistribution records,
      g.percentage = roundTo2 ((g.count : ℚ) / (records.length : ℚ) * 100))
  ∧ (records.length = 0 →
      statusCodeDistribution records = [] ∧ serviceDistribution records = []) := by
  refine ⟨sum_statusCodeDistribution records, sum_serviceDistribution records,
    ?_, ?_, ?_⟩
  · exact pct_statusCodeDistribution records
  · exact pct_serviceDistribution records
  · intro h
    have he : records = [] := List.length_eq_zero.1 h
    subst he
    exact ⟨rfl, rfl⟩

/-- C10: In the service distribution produced by the consumer-requests
operation, each group's nested status-code breakdown counts sum to the
group's own count. -/
theorem nested_breakdown_counts_sum_to_group_count
    (records : List ApiRequestResult) :
    ∀ g ∈ serviceDistribution records,
      ((g.statusCodeBreakdown).map (fun s => s.count)).sum = g.count := by
  intro g hg
  unfold serviceDistribution at hg
  rw [mem_sortByCountDesc] at hg
  obtain ⟨e, he, rfl⟩ := List.mem_map.1 hg
  have h := serviceBreakdown_nested_sum records e he
  show ((sortByCountDesc (fun s => s.count)
      ((e.2.statusCodes).map (fun s => (⟨s.1, s.2⟩ : StatusCount)))).map
      (fun s : StatusCount => s.count)).sum = e.2.count
  rw [sum_map_sortByCountDesc, List.map_map]
  exact h

theorem append_ite {α : Type} (f : List α) (c : Prop) [Decidable c]
    (x : List α) :
    (if c then f ++ x else f) = f ++ (if c then x else []) := by
  split <;> simp

theorem append_ite_flip {α : Type} (f : List α) (c : Prop) [Decidable c]
    (x : List α) :
    (if c then f else f ++ x) = f ++ (if c then [] else x) := by
  split <;> simp

theorem ite_append_left {α : Type} (c : Prop) [Decidable c] (f a b : List α) :
    (if c then f ++ a else f ++ b) = f ++ (if c then a else b) := by
  split <;> rfl

theorem buildQueryFilters_eq_spec (a : QueryApiRequestsArgs) :
    buildQueryFilters a = filterRulesSpec a := by
  obtain ⟨o1, o2, o3, o4, o5, o6⟩ := a
  rcases o1 with _ | l1 <;> rcases o2 with _ | l2 <;> rcases o3 with _ | l3 <;>
    rcases o4 with _ | l4 <;> rcases o5 with _ | l5 <;> rcases o6 with _ | l6 <;>
    simp [buildQueryFilters, filterRulesSpec, append_ite, append_ite_flip,
      ite_append_left, List.length_pos, List.append_assoc]

/-- C5: The filter builder emits predicates in the fixed order status_code
IN, status_code NOT_IN, http_method IN, consumer IN, gateway_service IN,
route IN — each exactly when the optional list is given and non-empty — and
an empty optional list behaves identically to an absent one, so a
zero-length filter list is never emitted. -/
theorem filter_builder_fixed_order_and_empty_lists (a : QueryApiRequestsArgs) :
    buildQueryFilters a = filterRulesSpec a
  ∧ buildQueryFilters { a with statusCodes := some [] }
      = buildQueryFilters { a with statusCodes := none }
  ∧ buildQueryFilters { a with excludeStatusCodes := some [] }
      = buildQueryFilters { a with excludeStatusCodes := none }
  ∧ buildQueryFilters { a with httpMethods := some [] }
      = buildQueryFilters { a with httpMethods := none }
  ∧ buildQueryFilters { a with consumerIds := some [] }
      = buildQueryFilters { a with consumerIds := none }
  ∧ buildQueryFilters { a with serviceIds := some [] }
      = buildQueryFilters { a with serviceIds := none }
  ∧ buildQueryFilters { a with routeIds := some [] }
      = buildQueryFilters { a with routeIds := none } := by
  refine ⟨buildQueryFilters_eq_spec a, ?_, ?_, ?_, ?_, ?_, ?_⟩ <;>
    · rw [buildQueryFilters_eq_spec, buildQueryFilters_eq_spec]
      obtain ⟨o1, o2, o3, o4, o5, o6⟩ := a
      simp [filterRulesSpec]

/-- C6: Building filters from the arguments `{statusCodes: [200, 201]}` and
serializing the filter list for the audit trail (the `metadata.filters`
echo) reproduces exactly
`[{field: "status_code", operator: IN, value: [200, 201]}]`. -/
theorem filter_roundtrip_status_codes :
    (queryApiRequests { statusCodes := some [200, 201] } 0 []).filters
      = [⟨"status_code", FilterOperator.IN, FilterValue.nums [200, 201]⟩] :=
  rfl

/-- C7: In the consumer-requests operation, when both successOnly and
failureOnly are set, the success predicate is appended and the failure
predicate is never emitted; mutual exclusivity of the flags is not
enforced. -/
theorem both_flags_favor_success (cid : String) :
    consumerRequestsFilters cid true true
      = [⟨"consumer", .IN, .strs [cid]⟩,
         ⟨"status_code_grouped", .IN, .strs ["2XX"]⟩]
  ∧ (⟨"status_code_grouped", .IN, .strs ["4XX", "5XX"]⟩ : FilterPredicate)
      ∉ consumerRequestsFilters cid true true := by
  refine ⟨rfl, ?_⟩
  intro h
  have h1 : consumerRequestsFilters cid true true
      = [⟨"consumer", .IN, .strs [cid]⟩,
         ⟨"status_code_grouped", .IN, .strs ["2XX"]⟩] := rfl
  rw [h1] at h
  rcases List.mem_cons.1 h with he | h
  · have hf : ("status_code_grouped" : String) = "consumer" :=
      congrArg FilterPredicate.field he
    exact absurd hf (by decide)
  · rcases List.mem_cons.1 h with he | h
    · have hv : FilterValue.strs ["4XX", "5XX"] = FilterValue.strs ["2XX"] :=
        congrArg FilterPredicate.value he
      exact absurd hv (by decide)
    · simp at h

/-- C8: averageLatencyMs is the rounded arithmetic mean of latencyTotalMs
over all records (missing latency contributing 0 to the sum but counted in
the denominator), successRate is the rounded `100 * successes / total` for
statusCode in [200, 300), and both are 0 for an empty record set. -/
theorem scalar_statistics_formulas (records : List ApiRequestResult) :
    (consumerStatistics records).averageLatencyMs
      = roundTo2 (if 0 < records.length then
          (records.map latencyOrZero).sum / (records.length : ℚ) else 0)
  ∧ (consumerStatistics records).successRate
      = roundTo2 (if 0 < records.length then
          100 * ((records.countP isSuccess : ℕ) : ℚ) / (records.length : ℚ)
        else 0)
  ∧ (records = [] →
      (consumerStatistics records).averageLatencyMs = 0
      ∧ (consumerStatistics records).successRate = 0) := by
  refine ⟨?_, ?_, ?_⟩
  · show roundTo2 (avgLatency records) = _
    congr 1
    unfold avgLatency
    by_cases h : 0 < records.length
    · rw [if_pos h, if_pos h, foldl_add_map_sum]
      simp
    · rw [if_neg h, if_neg h]
  · show roundTo2 (successRateRaw records) = _
    congr 1
    unfold successRateRaw
    by_cases h : 0 < records.length
    · rw [if_pos h, if_pos h, List.countP_eq_length_filter]
      ring
    · rw [if_neg h, if_neg h]
  · intro h
    subst h
    constructor
    · show roundTo2 (avgLatency []) = 0
      rw [show avgLatency [] = 0 from rfl, roundTo2_zero]
    · show roundTo2 (successRateRaw []) = 0
      rw [show successRateRaw [] = 0 from rfl, roundTo2_zero]

/-- C9: The top-5 consumer and top-5 service failure groups are the sorted
lists capped after sorting, so every returned group's count is at least
every dropped group's count — the returned groups are the 5 groups with the
highest counts. -/
theorem top5_cap_applied_after_sorting (records : List ApiRequestResult) :
    byConsumerTop5 records = (byConsumerSorted records).take 5
  ∧ (∀ a ∈ byConsumerTop5 records, a ∈ byConsumerSorted records)
  ∧ (∀ a ∈ byConsumerTop5 records,
      ∀ b ∈ (byConsumerSorted records).drop 5, b.count ≤ a.count)
  ∧ byServiceTop5 records = (byServiceSorted records).take 5
  ∧ (∀ a ∈ byServiceTop5 records, a ∈ byServiceSorted records)
  ∧ (∀ a ∈ byServiceTop5 records,
      ∀ b ∈ (byServiceSorted records).drop 5, b.count ≤ a.count) := by
  refine ⟨rfl, ?_, ?_, rfl, ?_, ?_⟩
  · intro a ha
    exact List.take_subset 5 _ ha
  · intro a ha b hb
    exact take_drop_counts (fun g : FailureGroupAggregate => g.count)
      ((byConsumer records).map (failureGroupAggregate records.length)) 5
      a ha b hb
  · intro a ha
    exact List.take_subset 5 _ ha
  · intro a ha b hb
    exact take_drop_counts (fun g : FailureGroupAggregate => g.count)
      ((byService records).map (failureGroupAggregate records.length)) 5
      a ha b hb

/-- C4: An absent consumer field normalizes to "anonymous" and an absent
service field to "unknown", and these placeholders participate as real
group keys in the produced distributions. -/
theorem placeholder_keys_participate (records rs : List ApiRequestResult)
    (r r' : ApiRequestResult) (h1 : r ∈ records)
    (h2 : r.gateway_service = none) (h3 : r' ∈ rs)
    (h4 : r'.consumer = none) :
    svcKey r = "unknown"
  ∧ consumerKeyJs r' = "anonymous"
  ∧ "unknown" ∈ (serviceDistribution records).map (fun g => g.serviceId)
  ∧ "anonymous" ∈ (byConsumerSorted rs).map (fun g => g.id) := by
  have hs : svcKey r = "unknown" := by simp [svcKey, h2]
  have hc : consumerKeyJs r' = "anonymous" := by
    simp [consumerKeyJs, jsOrStr, h4]
  refine ⟨hs, hc, ?_, ?_⟩
  · have hk := mem_keys_accumBy svcKey
      (fun r (d : ServiceData) =>
        (⟨d.count + 1, bumpNum (resolvedStatus r) d.statusCodes⟩ : ServiceData))
      (⟨0, []⟩ : ServiceData) records r h1
    rw [hs] at hk
    unfold serviceDistribution
    exact mem_ids_sortByCountDesc_map _ _
      (fun g : ServiceAggregate => g.serviceId) (serviceBreakdown records)
      Prod.fst (fun _ => rfl) "unknown" hk
  · have hk := mem_keys_accumBy consumerKeyJs
      (fun r (l : List ApiRequestResult) => l ++ [r])
      ([] : List ApiRequestResult) rs r' h3
    rw [hc] at hk
    unfold byConsumerSorted
    exact mem_ids_sortByCountDesc_map _ (failureGroupAggregate rs.length)
      (fun g : FailureGroupAggregate => g.id) (byConsumer rs) Prod.fst
      (fun _ => rfl) "anonymous" hk

/-- The record with every backend field absent; in particular both status
fields are missing. -/
def bothStatusMissing : ApiRequestResult := {}

/-- C3 counterexample: on a record with both status fields absent, the
per-request list of the consumer-requests operation carries no statusCode —
`undefined`, not the claimed 0 default. -/
theorem statusCode_request_list_counterexample :
    ((getConsumerRequests "c1" false false [bothStatusMissing]).requests.map
        (fun v => v.statusCode)) = [none]
  ∧ ((getConsumerRequests "c1" false false [bothStatusMissing]).requests.map
        (fun v => v.statusCode)) ≠ [some 0] := by
  refine ⟨rfl, ?_⟩
  intro h
  have h1 : ((getConsumerRequests "c1" false false
      [bothStatusMissing]).requests.map (fun v => v.statusCode))
      = [none] := rfl
  rw [h1] at h
  simp at h

/-- C3 amended: the statistics computations resolve statusCode as primary
field, then fallback field, then 0 (never null, 0 exactly when both source
fields are absent), and every status-code key of the distribution is such a
resolved status; the per-request list instead uses the falsy-or chain and
carries no statusCode when both source fields are absent. -/
theorem statusCode_resolution_amended (r : ApiRequestResult)
    (records : List ApiRequestResult) :
    (r.status_code = none ∧ r.response_http_status = none →
      resolvedStatus r = 0)
  ∧ (∀ s, r.status_code = some s → resolvedStatus r = s)
  ∧ (r.status_code = none →
      resolvedStatus r = r.response_http_status.getD 0)
  ∧ (∀ g ∈ statusCodeDistribution records,
      ∃ rec ∈ records, g.statusCode = resolvedStatus rec)
  ∧ (r.status_code = none ∧ r.response_http_status = none →
      (requestView r).statusCode = none) := by
  refine ⟨?_, ?_, ?_, ?_, ?_⟩
  · rintro ⟨h1, h2⟩
    simp [resolvedStatus, h1, h2]
  · intro s hs
    simp [resolvedStatus, hs]
  · intro h1
    cases h2 : r.response_http_status <;> simp [resolvedStatus, h1, h2]
  · intro g hg
    unfold statusCodeDistribution at hg
    rw [mem_sortByCountDesc] at hg
    obtain ⟨e, he, rfl⟩ := List.mem_map.1 hg
    obtain ⟨rec, hrec, hfe⟩ := keys_countNumBy_image resolvedStatus records
      e.1 (List.mem_map.2 ⟨e, he, rfl⟩)
    exact ⟨rec, hrec, hfe.symm⟩
  · rintro ⟨h1, h2⟩
    simp [requestView, jsOrNum, h1, h2]

/-! ## Concrete examples and witnesses -/

/-- Four records with statuses 404, 404, 500, 200 — the specification's
numeric tie-break example. -/
def exRecords : List ApiRequestResult :=
  [{ status_code := some 404 }, { status_code := some 404 },
   { status_code := some 500 }, { status_code := some 200 }]

/-- A record whose service id is `s` and nothing else. -/
def exSvc (s : String) : ApiRequestResult := { gateway_service := some s }

/-- The specification's identifier-key example sequence b, a, b, a, c. -/
def exSvcRecords : List ApiRequestResult :=
  [exSvc "b", exSvc "a", exSvc "b", exSvc "a", exSvc "c"]

theorem pct_two_of_four : pct 2 4 = 50 := by
  norm_num [pct, roundTo2, roundHalfAway]

theorem pct_one_of_four : pct 1 4 = 25 := by
  norm_num [pct, roundTo2, roundHalfAway]

/-- Spec example: grouping `[404, 404, 500, 200]` by status code yields 404
(count 2) first and then the tied singles in ascending key order 200, 500,
with percentages 50, 25, 25. -/
theorem statusCodeDistribution_spec_example :
    statusCodeDistribution exRecords
      = [⟨404, 2, pct 2 4⟩, ⟨200, 1, pct 1 4⟩, ⟨500, 1, pct 1 4⟩] := rfl

/-- Spec example: grouping identifier keys arriving b, a, b, a, c yields the
order b, a, c — the b/a tie broken by first appearance, not alphabetically. -/
theorem serviceDistribution_spec_example :
    (serviceDistribution exSvcRecords).map (fun g => g.serviceId)
      = ["b", "a", "c"] := rfl

theorem grouped_distributions_sorted_witness :
    List.Pairwise
      (fun a b => b.count ≤ a.count ∧
        (a.count = b.count → a.statusCode < b.statusCode))
      (statusCodeDistribution exRecords)
  ∧ List.Pairwise
      (fun a b => b.count ≤ a.count ∧ (a.count = b.count →
        fIdx a.serviceId (exRecords.map svcKey)
          < fIdx b.serviceId (exRecords.map svcKey)))
      (serviceDistribution exRecords)
  ∧ List.Pairwise
      (fun a b => b.count ≤ a.count ∧ (a.count = b.count →
        fIdx a.id (exRecords.map consumerKeyJs)
          < fIdx b.id (exRecords.map consumerKeyJs)))
      (byConsumerSorted exRecords)
  ∧ List.Pairwise
      (fun a b => b.count ≤ a.count ∧ (a.count = b.count →
        fIdx a.id (exRecords.map svcKeyJs)
          < fIdx b.id (exRecords.map svcKeyJs)))
      (byServiceSorted exRecords)
  ∧ List.Pairwise
      (fun a b => b.count ≤ a.count ∧ (a.count = b.count →
        fIdx a.httpMethod (exRecords.map methodKeyJs)
          < fIdx b.httpMethod (exRecords.map methodKeyJs)))
      (byHttpMethodSorted exRecords)
  ∧ List.Pairwise
      (fun a b => b.count ≤ a.count ∧ (a.count = b.count →
        fIdx a.routeId (exRecords.map routeKeyJs)
          < fIdx b.routeId (exRecords.map routeKeyJs)))
      (routeDistribution exRecords) :=
  grouped_distributions_sorted_with_deterministic_ties exRecords

theorem grouped_aggregate_invariants_witness :
    ((statusCodeDistribution exRecords).map (fun g => g.count)).sum
        = exRecords.length
  ∧ ((serviceDistribution exRecords).map (fun g => g.count)).sum
        = exRecords.length
  ∧ (∀ g ∈ statusCodeDistribution exRecords,
      g.percentage
        = roundTo2 ((g.count : ℚ) / (exRecords.length : ℚ) * 100))
  ∧ (∀ g ∈ serviceDistribution exRecords,
      g.percentage
        = roundTo2 ((g.count : ℚ) / (exRecords.length : ℚ) * 100))
  ∧ (exRecords.length = 0 →
      statusCodeDistribution exRecords = []
      ∧ serviceDistribution exRecords = []) :=
  grouped_aggregate_invariants exRecords

theorem statusCode_resolution_amended_witness :
    resolvedStatus bothStatusMissing = 0
  ∧ (requestView bothStatusMissing).statusCode = none := by
  have h := statusCode_resolution_amended bothStatusMissing []
  exact ⟨h.1 ⟨rfl, rfl⟩, h.2.2.2.2 ⟨rfl, rfl⟩⟩

theorem placeholder_keys_witness :
    svcKey bothStatusMissing = "unknown"
  ∧ consumerKeyJs bothStatusMissing = "anonymous"
  ∧ "unknown" ∈ (serviceDistribution [bothStatusMissing]).map
      (fun g => g.serviceId)
  ∧ "anonymous" ∈ (byConsumerSorted [bothStatusMissing]).map
      (fun g => g.id) :=
  placeholder_keys_participate [bothStatusMissing] [bothStatusMissing]
    bothStatusMissing bothStatusMissing (List.mem_singleton_self _) rfl
    (List.mem_singleton_self _) rfl

theorem filter_builder_witness :
    buildQueryFilters {} = filterRulesSpec {}
  ∧ buildQueryFilters { ({} : QueryApiRequestsArgs) with
        statusCodes := some [] }
      = buildQueryFilters { ({} : QueryApiRequestsArgs) with
        statusCodes := none }
  ∧ buildQueryFilters { ({} : QueryApiRequestsArgs) with
        excludeStatusCodes := some [] }
      = buildQueryFilters { ({} : QueryApiRequestsArgs) with
        excludeStatusCodes := none }
  ∧ buildQueryFilters { ({} : QueryApiRequestsArgs) with
        httpMethods := some [] }
      = buildQueryFilters { ({} : QueryApiRequestsArgs) with
        httpMethods := none }
  ∧ buildQueryFilters { ({} : QueryApiRequestsArgs) with
        consumerIds := some [] }
      = buildQueryFilters { ({} : QueryApiRequestsArgs) with
        consumerIds := none }
  ∧ buildQueryFilters { ({} : QueryApiRequestsArgs) with
        serviceIds := some [] }
      = buildQueryFilters { ({} : QueryApiRequestsArgs) with
        serviceIds := none }
  ∧ buildQueryFilters { ({} : QueryApiRequestsArgs) with
        routeIds := some [] }
      = buildQueryFilters { ({} : QueryApiRequestsArgs) with
        routeIds := none } :=
  filter_builder_fixed_order_and_empty_lists {}

theorem both_flags_favor_success_witness :
    consumerRequestsFilters "alice" true true
      = [⟨"consumer", .IN, .strs ["alice"]⟩,
         ⟨"status_code_grouped", .IN, .strs ["2XX"]⟩]
  ∧ (⟨"status_code_grouped", .IN, .strs ["4XX", "5XX"]⟩ : FilterPredicate)
      ∉ consumerRequestsFilters "alice" true true :=
  both_flags_favor_success "alice"

theorem scalar_statistics_witness :
    (consumerStatistics exRecords).averageLatencyMs
      = roundTo2 (if 0 < exRecords.length then
          (exRecords.map latencyOrZero).sum / (exRecords.length : ℚ) else 0)
  ∧ (consumerStatistics exRecords).successRate
      = roundTo2 (if 0 < exRecords.length then
          100 * ((exRecords.countP isSuccess : ℕ) : ℚ)
            / (exRecords.length : ℚ)
        else 0)
  ∧ (exRecords = [] →
      (consumerStatistics exRecords).averageLatencyMs = 0
      ∧ (consumerStatistics exRecords).successRate = 0) :=
  scalar_statistics_formulas exRecords

theorem top5_cap_witness :
    byConsumerTop5 exRecords = (byConsumerSorted exRecords).take 5
  ∧ (∀ a ∈ byConsumerTop5 exRecords, a ∈ byConsumerSorted exRecords)
  ∧ (∀ a ∈ byConsumerTop5 exRecords,
      ∀ b ∈ (byConsumerSorted exRecords).drop 5, b.count ≤ a.count)
  ∧ byServiceTop5 exRecords = (byServiceSorted exRecords).take 5
  ∧ (∀ a ∈ byServiceTop5 exRecords, a ∈ byServiceSorted exRecords)
  ∧ (∀ a ∈ byServiceTop5 exRecords,
      ∀ b ∈ (byServiceSorted exRecords).drop 5, b.count ≤ a.count) :=
  top5_cap_applied_after_sorting exRecords

theorem nested_breakdown_counts_witness :
    (((⟨"unknown", 1, pct 1 1, [⟨0, 1⟩]⟩ :
        ServiceAggregate)).statusCodeBreakdown.map (fun s => s.count)).sum
      = (⟨"unknown", 1, pct 1 1, [⟨0, 1⟩]⟩ : ServiceAggregate).count :=
  nested_breakdown_counts_sum_to_group_count [bothStatusMissing]
    ⟨"unknown", 1, pct 1 1, [⟨0, 1⟩]⟩ (List.mem_singleton.2 rfl)

end McpKonnect
